import Mathlib

/-!
Verification of the charging-session aggregation engine of the
rivian-charging-tracker repository.  The Python sources
`analyze_charging.py`, `monthly_summary.py` and `monthly_summary_web.py`
are shallowly embedded below: raw JSON session records become the
`RawCharge` structure (numeric fields as `Option ℚ`, absent/null = `none`),
the response body becomes `ChargingData`, and each aggregation function is
translated line by line.  Python float arithmetic is modelled with exact
rationals, and Python `round(x, n)` with `roundTo`.
-/

/-- Round a rational to `n` decimal places, the model of Python `round(x, n)`. -/
def roundTo (n : ℕ) (q : ℚ) : ℚ := (round (q * (10 : ℚ) ^ n) : ℤ) / (10 : ℚ) ^ n

/-- A raw charging-session record as delivered in the `results` array of the
remote service's JSON response.  Every field the analyzers read is optional;
`none` models an absent (or JSON-null) key. -/
structure RawCharge where
  date : Option String := none
  homeChargeFlag : Option Int := none
  totalEnergyAdded : Option ℚ := none
  homeCost : Option ℚ := none
  superCost : Option ℚ := none
  travelCost : Option ℚ := none
  odometer : Option ℚ := none
  locationName : Option String := none
  startPercent : Option ℚ := none
  chargePercent : Option ℚ := none
  totalMinutes : Option ℚ := none
  avgChargerPower : Option ℚ := none
deriving DecidableEq

/-- The pre-parsed response body: `results` plus the echoed window bounds. -/
structure ChargingData where
  results : List RawCharge := []
  dateFrom : Option String := none
  dateTo : Option String := none
deriving DecidableEq

/-- Model of `float(charge.get(key, 0) or 0)`: absent, null or zero coerces
to `0`, a present numeric value is kept. -/
def numOr0 (o : Option ℚ) : ℚ := o.getD 0

/-- Model of `charge.get("homeChargeFlag") == 1`. -/
def isHomeCharge (c : RawCharge) : Bool := c.homeChargeFlag == some 1

/-- `ChargingAnalyzer.filter_home_charges` from `analyze_charging.py`. -/
def filter_home_charges (d : ChargingData) : List RawCharge :=
  d.results.filter isHomeCharge

/-- The away partition built inside `calculate_all_charging_summary`:
sessions whose `homeChargeFlag` is not `1`. -/
def awayCharges (d : ChargingData) : List RawCharge :=
  d.results.filter (fun c => !isHomeCharge c)

/-- Model of `sum(float(c.get(key, 0) or 0) for c in l)`. -/
def sumNum (l : List RawCharge) (f : RawCharge → Option ℚ) : ℚ :=
  (l.map (fun c => numOr0 (f c))).sum

/-- Lexicographic strict comparison of character lists by code point, the
model of Python string `<`. -/
def charsLtb : List Char → List Char → Bool
  | [], [] => false
  | [], _ :: _ => true
  | _ :: _, [] => false
  | a :: as, b :: bs =>
    if a.toNat < b.toNat then true
    else if b.toNat < a.toNat then false
    else charsLtb as bs

/-- Python string `<` on whole strings. -/
def strLtb (a b : String) : Bool := charsLtb a.data b.data

/-- The key that Python `sorted(home_charges, key=lambda x: x.get("date", ""))`
sorts by. -/
def dateKey (c : RawCharge) : String := c.date.getD ""

/-- One step of a stable ascending insertion by `dateKey`: the new element is
placed before the first strictly greater key, hence after equal keys, which is
exactly the stability contract of Python `sorted`. -/
def insertByDate (c : RawCharge) : List RawCharge → List RawCharge
  | [] => [c]
  | x :: xs =>
    if strLtb (dateKey c) (dateKey x) then c :: x :: xs else x :: insertByDate c xs

/-- Model of Python `sorted(l, key=lambda x: x.get("date", ""))` as a stable
insertion sort, processing the input left to right. -/
def sortByDate (l : List RawCharge) : List RawCharge :=
  l.foldl (fun acc c => insertByDate c acc) []

/-- Last element of a list, the model of the Python `[-1]` index used on the
sorted session list. -/
def lastElem? : List RawCharge → Option RawCharge
  | [] => none
  | [a] => some a
  | _ :: b :: t => lastElem? (b :: t)

/-- One step of the specification-worded selection of the latest session:
keep the element with the lexicographically larger date key, preferring the
later occurrence on ties. -/
def pickLater (acc : Option RawCharge) (c : RawCharge) : Option RawCharge :=
  match acc with
  | none => some c
  | some b => if strLtb (dateKey c) (dateKey b) then some b else some c

/-- The session whose `date` string is lexicographically maximum, ties broken
by last occurrence in input order.  This is the specification's description of
how the final odometer source session is chosen. -/
def maxDateLastOcc (l : List RawCharge) : Option RawCharge :=
  l.foldl pickLater none

/-- The miles-to-kilometers factor `1.60934` used by the analyzer. -/
def kmPerMi : ℚ := 160934 / 100000

/-- The dictionary returned by `ChargingAnalyzer.calculate_home_summary`.
Keys that a branch of the Python code omits are modelled as `none`. -/
structure HomeSummary where
  total_sessions : ℕ
  total_kwh : ℚ
  total_cost : ℚ
  avg_cost_per_kwh : Option ℚ
  final_odometer_mi : Option ℚ
  final_odometer_km : Option ℚ
  last_charge_date : Option String
  date_from : Option String
  date_to : Option String
deriving DecidableEq

/-- `ChargingAnalyzer.calculate_home_summary` from `analyze_charging.py`,
translated branch by branch.  `final_odo_mi`/`final_odo_km` reproduce the
Python truthiness guards (`if final_odo_mi`), under which a zero value behaves
like an absent one. -/
def calculate_home_summary (d : ChargingData) : HomeSummary :=
  let home := filter_home_charges d
  if home.isEmpty then
    { total_sessions := 0, total_kwh := 0, total_cost := 0
      avg_cost_per_kwh := none, final_odometer_mi := none, final_odometer_km := none
      last_charge_date := none, date_from := d.dateFrom, date_to := d.dateTo }
  else
    let total_kwh := sumNum home (fun c => c.totalEnergyAdded)
    let total_cost := sumNum home (fun c => c.homeCost)
    match lastElem? (sortByDate home) with
    | none =>
      { total_sessions := home.length
        total_kwh := roundTo 2 total_kwh
        total_cost := roundTo 2 total_cost
        avg_cost_per_kwh := some (if 0 < total_kwh then roundTo 4 (total_cost / total_kwh) else 0)
        final_odometer_mi := none, final_odometer_km := none
        last_charge_date := none, date_from := d.dateFrom, date_to := d.dateTo }
    | some last =>
      let mi := (last.odometer).getD 0
      let kmOpt : Option ℚ := if mi = 0 then none else some (mi * kmPerMi)
      { total_sessions := home.length
        total_kwh := roundTo 2 total_kwh
        total_cost := roundTo 2 total_cost
        avg_cost_per_kwh := some (if 0 < total_kwh then roundTo 4 (total_cost / total_kwh) else 0)
        final_odometer_mi := if mi = 0 then none else some (roundTo 1 mi)
        final_odometer_km :=
          match kmOpt with
          | none => none
          | some km => if km = 0 then none else some (roundTo 1 km)
        last_charge_date := last.date
        date_from := d.dateFrom, date_to := d.dateTo }

/-- The dictionary returned by `ChargingAnalyzer.calculate_all_charging_summary`.
The empty-input branch of the Python code returns only the three counts, so
the energy and cost keys are optional. -/
structure AllSummary where
  total_sessions : ℕ
  home_sessions : ℕ
  away_sessions : ℕ
  total_kwh_all : Option ℚ
  total_kwh_home : Option ℚ
  total_kwh_away : Option ℚ
  total_cost_home : Option ℚ
  total_cost_super : Option ℚ
  total_cost_travel : Option ℚ
  total_cost_all : Option ℚ
deriving DecidableEq

/-- `ChargingAnalyzer.calculate_all_charging_summary` from `analyze_charging.py`. -/
def calculate_all_charging_summary (d : ChargingData) : AllSummary :=
  if d.results.isEmpty then
    { total_sessions := 0, home_sessions := 0, away_sessions := 0
      total_kwh_all := none, total_kwh_home := none, total_kwh_away := none
      total_cost_home := none, total_cost_super := none, total_cost_travel := none
      total_cost_all := none }
  else
    let home := filter_home_charges d
    let away := awayCharges d
    let total_cost_home := sumNum home (fun c => c.homeCost)
    let total_cost_super := sumNum d.results (fun c => c.superCost)
    let total_cost_travel := sumNum d.results (fun c => c.travelCost)
    { total_sessions := d.results.length
      home_sessions := home.length
      away_sessions := away.length
      total_kwh_all := some (roundTo 2 (sumNum d.results (fun c => c.totalEnergyAdded)))
      total_kwh_home := some (roundTo 2 (sumNum home (fun c => c.totalEnergyAdded)))
      total_kwh_away := some (roundTo 2 (sumNum away (fun c => c.totalEnergyAdded)))
      total_cost_home := some (roundTo 2 total_cost_home)
      total_cost_super := some (roundTo 2 total_cost_super)
      total_cost_travel := some (roundTo 2 total_cost_travel)
      total_cost_all := some (roundTo 2 (total_cost_home + total_cost_super + total_cost_travel)) }

/-- One element of the list produced by `ChargingAnalyzer.get_charging_details`. -/
structure SessionDetail where
  date : Option String
  location : Option String
  kwh_added : ℚ
  cost : ℚ
  start_percent : ℚ
  charge_percent : Option ℚ
  duration_min : Option ℚ
  avg_power_kw : ℚ
  odometer_mi : ℚ
  is_home : Bool
deriving DecidableEq

/-- The per-session projection built inside `get_charging_details`.  Note the
odometer entry: `round(float(charge.get("odometer", 0)), 1)` substitutes a
zero default for an absent odometer instead of failing. -/
def detailOfCharge (c : RawCharge) : SessionDetail :=
  { date := c.date
    location := c.locationName
    kwh_added := numOr0 c.totalEnergyAdded
    cost := if isHomeCharge c then numOr0 c.homeCost else numOr0 c.superCost + numOr0 c.travelCost
    start_percent := numOr0 c.startPercent
    charge_percent := c.chargePercent
    duration_min := c.totalMinutes
    avg_power_kw := numOr0 c.avgChargerPower
    odometer_mi := roundTo 1 ((c.odometer).getD 0)
    is_home := isHomeCharge c }

/-- `ChargingAnalyzer.get_charging_details` from `analyze_charging.py`. -/
def get_charging_details (d : ChargingData) (home_only : Bool) : List SessionDetail :=
  (if home_only then filter_home_charges d else d.results).map detailOfCharge

/-- The per-month aggregate dictionary produced by `analyze_month` in
`monthly_summary.py` and `monthly_summary_web.py`. -/
structure MonthAgg where
  kwh : ℚ
  cost : ℚ
  odo : ℚ
  cost_per_kwh : ℚ
deriving DecidableEq

/-- `analyze_month` from `monthly_summary.py` (identical in
`monthly_summary_web.py`): `None` on a month without home sessions, otherwise
the four key values. -/
def analyze_month (d : ChargingData) : Option MonthAgg :=
  let home := filter_home_charges d
  if home.isEmpty then none
  else
    let total_kwh := sumNum home (fun c => c.totalEnergyAdded)
    let total_cost := sumNum home (fun c => c.homeCost)
    let final_odo :=
      match lastElem? (sortByDate home) with
      | some c => (c.odometer).getD 0
      | none => 0
    some { kwh := roundTo 1 total_kwh
           cost := roundTo 2 total_cost
           odo := roundTo 0 final_odo
           cost_per_kwh := if 0 < total_kwh then roundTo 2 (total_cost / total_kwh) else 0 }

/-- The unrounded home energy total `total_kwh` that the summary code divides
by. -/
def homeKwhRaw (d : ChargingData) : ℚ :=
  sumNum (filter_home_charges d) (fun c => c.totalEnergyAdded)

/-- The unrounded home cost total `total_cost`. -/
def homeCostRaw (d : ChargingData) : ℚ :=
  sumNum (filter_home_charges d) (fun c => c.homeCost)

/-- A calendar date, the model of Python `datetime.date`. -/
structure Date where
  year : ℕ
  month : ℕ
  day : ℕ
deriving DecidableEq

/-- The Gregorian leap-year rule, the calendar ground truth behind
`datetime.date` arithmetic. -/
def isLeap (y : ℕ) : Bool := y % 4 == 0 && (y % 100 != 0 || y % 400 == 0)

/-- Number of days in month `m` of year `y` under the Gregorian calendar. -/
def daysInMonth (y m : ℕ) : ℕ :=
  if m = 2 then (if isLeap y then 29 else 28)
  else if m = 4 ∨ m = 6 ∨ m = 9 ∨ m = 11 then 30 else 31

/-- Model of `dateutil` `relativedelta(months=i)` subtraction restricted to
the year/month pair, which is all `monthly_summary` reads from the result. -/
def monthsBack (y m i : ℕ) : ℕ × ℕ :=
  let t := y * 12 + (m - 1) - i
  (t / 12, t % 12 + 1)

/-- Model of `date(y, m, 1) - relativedelta(days=1)`: the day before the
first day of month `m` of year `y`, i.e. the last day of the preceding
month. -/
def dayBeforeFirst (y m : ℕ) : Date :=
  if m ≤ 1 then ⟨y - 1, 12, 31⟩ else ⟨y, m - 1, daysInMonth y (m - 1)⟩

/-- The month-end computation of `monthly_summary.main`: January of the next
year when the month is December, otherwise the next month of the same year,
minus one day. -/
def lastDayOfMonthCode (y m : ℕ) : Date :=
  if m = 12 then dayBeforeFirst (y + 1) 1 else dayBeforeFirst y (m + 1)

/-- Zero-padded two-digit decimal rendering, the model of the `%02d` format
and of `strftime` `%y`/`%m` fields. -/
def fmt2 (n : ℕ) : String := if n < 10 then "0" ++ toString n else toString n

/-- The window label `first_day.strftime("%y-%m")`. -/
def mkLabel (y m : ℕ) : String := fmt2 (y % 100) ++ "-" ++ fmt2 m

/-- One entry of the `months` list built by `monthly_summary.main`. -/
structure MonthWindow where
  year : ℕ
  month : ℕ
  first_day : Date
  last_day : Date
  label : String
deriving DecidableEq

/-- The window appended for loop index `i` in `monthly_summary.main`:
the calendar month `i` months before today, with its first and last day and
its two-digit label. -/
def mkMonthWindow (today : Date) (i : ℕ) : MonthWindow :=
  let ym := monthsBack today.year today.month i
  { year := ym.1
    month := ym.2
    first_day := ⟨ym.1, ym.2, 1⟩
    last_day := lastDayOfMonthCode ym.1 ym.2
    label := mkLabel ym.1 ym.2 }

/-- The trailing-24-months window list of `monthly_summary.main` and
`monthly_summary_web.main`: loop `for i in range(24, 0, -1)`, so entry `j`
uses `i = 24 - j`. -/
def trailingMonths24 (today : Date) : List MonthWindow :=
  (List.range 24).map (fun j => mkMonthWindow today (24 - j))

/-- Linearised month counter used to state consecutiveness of windows. -/
def monthIdx (w : MonthWindow) : ℕ := w.year * 12 + w.month

/-- The calendar successor of a date: rolls over month ends and the year end. -/
def nextDay (dt : Date) : Date :=
  if dt.day = daysInMonth dt.year dt.month then
    (if dt.month = 12 then ⟨dt.year + 1, 1, 1⟩ else ⟨dt.year, dt.month + 1, 1⟩)
  else ⟨dt.year, dt.month, dt.day + 1⟩

/-- The prior-year label `f"{year-1-2000:02d}-{month:02d}"` computed in the
year-over-year loop. -/
def priorYearLabel (y m : ℕ) : String := fmt2 (y - 1 - 2000) ++ "-" ++ fmt2 m

/-- The year-over-year figure computed per row in `monthly_summary_web.main`:
look up the same calendar month one year earlier; when found with positive
kwh, the percentage change rounded to 0 decimals, otherwise absent. -/
def yoyFor (monthly : List (String × MonthAgg)) (y m : ℕ) (currKwh : ℚ) : Option ℚ :=
  match List.lookup (priorYearLabel y m) monthly with
  | none => none
  | some p => if 0 < p.kwh then some (roundTo 0 ((currKwh - p.kwh) / p.kwh * 100)) else none

/-- Insertion into the `monthly_data` dictionary: overwrite the entry with
the same key if present, otherwise append. -/
def insertLabeled : List (String × MonthAgg) → String → MonthAgg → List (String × MonthAgg)
  | [], k, v => [(k, v)]
  | (k', v') :: rest, k, v =>
    if k' = k then (k, v) :: rest else (k', v') :: insertLabeled rest k v

/-- One iteration of the fetch-and-aggregate loop of `monthly_summary.main`:
fetch the window (`none` models a failed fetch, which the `except` arm
skips), aggregate with `analyze_month`, and store the aggregate under the
window's label only when it is not `None`. -/
def monthStep (fetch : MonthWindow → Option ChargingData)
    (acc : List (String × MonthAgg)) (m : MonthWindow) : List (String × MonthAgg) :=
  match fetch m with
  | none => acc
  | some data =>
    match analyze_month data with
    | none => acc
    | some agg => insertLabeled acc m.label agg

/-- The `monthly_data` dictionary built by the fetch loop of
`monthly_summary.main` and `monthly_summary_web.main`. -/
def buildMonthlyData (months : List MonthWindow)
    (fetch : MonthWindow → Option ChargingData) : List (String × MonthAgg) :=
  months.foldl (monthStep fetch) []

/-- A fetch function with window `mp` knocked out, modelling that window's
fetch raising an exception. -/
def updateFetchNone (fetch : MonthWindow → Option ChargingData) (mp : MonthWindow) :
    MonthWindow → Option ChargingData :=
  fun w => if w = mp then none else fetch w

/-! ### Order properties of the date comparator -/

theorem charsLtb_asymm : ∀ as bs : List Char,
    charsLtb as bs = true → charsLtb bs as = false := by
  intro as
  induction as with
  | nil =>
    intro bs h
    cases bs with
    | nil => simp [charsLtb] at h
    | cons b bs => simp [charsLtb]
  | cons a as ih =>
    intro bs h
    cases bs with
    | nil => simp [charsLtb] at h
    | cons b bs =>
      simp only [charsLtb] at h ⊢
      by_cases hab : a.toNat < b.toNat
      · rw [if_neg (show ¬ b.toNat < a.toNat by omega), if_pos hab]
      · rw [if_neg hab] at h
        by_cases hba : b.toNat < a.toNat
        · rw [if_pos hba] at h
          exact absurd h (by simp)
        · rw [if_neg hba] at h
          rw [if_neg hba, if_neg hab]
          exact ih bs h

theorem charsLtb_trans_not : ∀ as xs bs : List Char,
    charsLtb as xs = true → charsLtb bs xs = false → charsLtb as bs = true := by
  intro as
  induction as with
  | nil =>
    intro xs bs h1 h2
    cases xs with
    | nil => simp [charsLtb] at h1
    | cons x xs =>
      cases bs with
      | nil => simp [charsLtb] at h2
      | cons b bs => simp [charsLtb]
  | cons a as ih =>
    intro xs bs h1 h2
    cases xs with
    | nil => simp [charsLtb] at h1
    | cons x xs =>
      cases bs with
      | nil => simp [charsLtb] at h2
      | cons b bs =>
        simp only [charsLtb] at h1 h2 ⊢
        by_cases hbx : b.toNat < x.toNat
        · rw [if_pos hbx] at h2
          exact absurd h2 (by simp)
        · rw [if_neg hbx] at h2
          by_cases hax : a.toNat < x.toNat
          · rw [if_pos (show a.toNat < b.toNat by omega)]
          · rw [if_neg hax] at h1
            by_cases hxa : x.toNat < a.toNat
            · rw [if_pos hxa] at h1
              exact absurd h1 (by simp)
            · rw [if_neg hxa] at h1
              by_cases hxb : x.toNat < b.toNat
              · rw [if_pos (show a.toNat < b.toNat by omega)]
              · rw [if_neg hxb] at h2
                rw [if_neg (show ¬ a.toNat < b.toNat by omega),
                  if_neg (show ¬ b.toNat < a.toNat by omega)]
                exact ih xs bs h1 h2

theorem strLtb_asymm {a b : String} (h : strLtb a b = true) : strLtb b a = false :=
  charsLtb_asymm a.data b.data h

theorem strLtb_trans_not {a x b : String} (h1 : strLtb a x = true)
    (h2 : strLtb b x = false) : strLtb a b = true :=
  charsLtb_trans_not a.data x.data b.data h1 h2

/-! ### The stable sort and the last-element selection -/

/-- The ordering relation maintained by the stable insertion sort: the left
element's key is not strictly greater than the right element's key. -/
def keyLe (a b : RawCharge) : Prop := strLtb (dateKey b) (dateKey a) = false

theorem mem_insertByDate {a c : RawCharge} : ∀ {s : List RawCharge},
    a ∈ insertByDate c s ↔ a = c ∨ a ∈ s := by
  intro s
  induction s with
  | nil => simp [insertByDate]
  | cons x xs ih =>
    simp only [insertByDate]
    by_cases h : strLtb (dateKey c) (dateKey x) = true
    · rw [if_pos h]
      simp only [List.mem_cons]
    · rw [if_neg h]
      simp only [List.mem_cons, ih]
      tauto

theorem insertByDate_ne_nil {c : RawCharge} {s : List RawCharge} :
    insertByDate c s ≠ [] := by
  cases s with
  | nil => simp [insertByDate]
  | cons x xs =>
    simp only [insertByDate]
    by_cases h : strLtb (dateKey c) (dateKey x) = true
    · rw [if_pos h]
      simp
    · rw [if_neg h]
      simp

theorem pairwise_insertByDate {c : RawCharge} : ∀ {s : List RawCharge},
    s.Pairwise keyLe → (insertByDate c s).Pairwise keyLe := by
  intro s
  induction s with
  | nil => intro _; simp [insertByDate, List.pairwise_cons]
  | cons x xs ih =>
    intro hs
    rw [List.pairwise_cons] at hs
    obtain ⟨hx, hxs⟩ := hs
    simp only [insertByDate]
    by_cases h : strLtb (dateKey c) (dateKey x) = true
    · rw [if_pos h, List.pairwise_cons]
      constructor
      · intro b hb
        rcases List.mem_cons.mp hb with hbx | hbxs
        · subst hbx
          exact strLtb_asymm h
        · have hxb : strLtb (dateKey b) (dateKey x) = false := hx b hbxs
          exact strLtb_asymm (strLtb_trans_not h hxb)
      · rw [List.pairwise_cons]
        exact ⟨hx, hxs⟩
    · have hf : strLtb (dateKey c) (dateKey x) = false := by
        cases hc : strLtb (dateKey c) (dateKey x)
        · rfl
        · exact absurd hc h
      rw [if_neg h, List.pairwise_cons]
      constructor
      · intro b hb
        rcases mem_insertByDate.mp hb with hbc | hbxs
        · subst hbc
          exact hf
        · exact hx b hbxs
      · exact ih hxs

theorem lastElem?_cons_cons {x y : RawCharge} {t : List RawCharge} :
    lastElem? (x :: y :: t) = lastElem? (y :: t) := rfl

theorem lastElem?_cons_of_ne_nil {x : RawCharge} {s : List RawCharge} (h : s ≠ []) :
    lastElem? (x :: s) = lastElem? s := by
  cases s with
  | nil => exact absurd rfl h
  | cons y t => rfl

theorem lastElem?_eq_some_of_ne_nil {s : List RawCharge} (h : s ≠ []) :
    ∃ b, lastElem? s = some b := by
  induction s with
  | nil => exact absurd rfl h
  | cons x xs ih =>
    cases xs with
    | nil => exact ⟨x, rfl⟩
    | cons y t =>
      obtain ⟨b, hb⟩ := ih (by simp)
      exact ⟨b, by rw [lastElem?_cons_cons, hb]⟩

theorem mem_of_lastElem?_eq_some : ∀ {s : List RawCharge} {b : RawCharge},
    lastElem? s = some b → b ∈ s := by
  intro s
  induction s with
  | nil => intro b h; simp [lastElem?] at h
  | cons x xs ih =>
    intro b h
    cases xs with
    | nil =>
      simp only [lastElem?, Option.some.injEq] at h
      simp [h]
    | cons y t =>
      rw [lastElem?_cons_cons] at h
      exact List.mem_cons_of_mem x (ih h)

theorem lastElem?_insertByDate {c : RawCharge} : ∀ {s : List RawCharge},
    s.Pairwise keyLe → lastElem? (insertByDate c s) = pickLater (lastElem? s) c := by
  intro s
  induction s with
  | nil => intro _; rfl
  | cons x xs ih =>
    intro hs
    rw [List.pairwise_cons] at hs
    obtain ⟨hx, hxs⟩ := hs
    simp only [insertByDate]
    by_cases h : strLtb (dateKey c) (dateKey x) = true
    · rw [if_pos h, lastElem?_cons_cons]
      obtain ⟨b, hb⟩ := lastElem?_eq_some_of_ne_nil (s := x :: xs) (by simp)
      rw [hb]
      have hcb : strLtb (dateKey c) (dateKey b) = true := by
        rcases List.mem_cons.mp (mem_of_lastElem?_eq_some hb) with hbx | hbxs
        · rw [hbx]
          exact h
        · exact strLtb_trans_not h (hx b hbxs)
      simp [pickLater, hcb]
    · have hf : strLtb (dateKey c) (dateKey x) = false := by
        cases hc : strLtb (dateKey c) (dateKey x)
        · rfl
        · exact absurd hc h
      rw [if_neg h]
      cases xs with
      | nil =>
        simp [insertByDate, lastElem?, pickLater, hf]
      | cons y t =>
        rw [lastElem?_cons_of_ne_nil insertByDate_ne_nil, ih hxs, lastElem?_cons_cons]

theorem sortByDate_pairwise_aux :
    ∀ (l acc : List RawCharge), acc.Pairwise keyLe →
      (l.foldl (fun a c => insertByDate c a) acc).Pairwise keyLe := by
  intro l
  induction l with
  | nil => intro acc h; exact h
  | cons x xs ih =>
    intro acc h
    exact ih (insertByDate x acc) (pairwise_insertByDate h)

theorem sortByDate_pairwise (l : List RawCharge) : (sortByDate l).Pairwise keyLe :=
  sortByDate_pairwise_aux l [] List.Pairwise.nil

theorem sortByDate_concat (l : List RawCharge) (c : RawCharge) :
    sortByDate (l ++ [c]) = insertByDate c (sortByDate l) := by
  simp [sortByDate, List.foldl_append]

theorem maxDateLastOcc_concat (l : List RawCharge) (c : RawCharge) :
    maxDateLastOcc (l ++ [c]) = pickLater (maxDateLastOcc l) c := by
  simp [maxDateLastOcc, List.foldl_append]

/-- The code's selection (stable ascending sort by date string, then last
element) coincides with the specification's description (lexicographically
maximum date string, ties broken by last occurrence in input order). -/
theorem lastElem?_sortByDate (l : List RawCharge) :
    lastElem? (sortByDate l) = maxDateLastOcc l := by
  induction l using List.reverseRecOn with
  | nil => rfl
  | append_singleton l c ih =>
    rw [sortByDate_concat, lastElem?_insertByDate (sortByDate_pairwise l), ih,
      maxDateLastOcc_concat]

theorem length_insertByDate {c : RawCharge} : ∀ {s : List RawCharge},
    (insertByDate c s).length = s.length + 1 := by
  intro s
  induction s with
  | nil => rfl
  | cons x xs ih =>
    simp only [insertByDate]
    by_cases h : strLtb (dateKey c) (dateKey x) = true
    · rw [if_pos h]
      rfl
    · rw [if_neg h]
      simp [ih]

theorem sortByDate_length_aux :
    ∀ (l acc : List RawCharge),
      (l.foldl (fun a c => insertByDate c a) acc).length = acc.length + l.length := by
  intro l
  induction l with
  | nil => intro acc; rfl
  | cons x xs ih =>
    intro acc
    rw [List.foldl_cons, ih, length_insertByDate, List.length_cons]
    omega

theorem sortByDate_length (l : List RawCharge) : (sortByDate l).length = l.length := by
  have := sortByDate_length_aux l []
  simpa [sortByDate] using this

theorem sortByDate_ne_nil {l : List RawCharge} (h : l ≠ []) : sortByDate l ≠ [] := by
  intro hs
  apply h
  have hl := sortByDate_length l
  rw [hs] at hl
  exact List.length_eq_zero.mp hl.symm

/-! ### Branch characterisations of the aggregation functions -/

theorem calculate_home_summary_of_nil {d : ChargingData}
    (h : filter_home_charges d = []) :
    calculate_home_summary d =
      { total_sessions := 0, total_kwh := 0, total_cost := 0
        avg_cost_per_kwh := none, final_odometer_mi := none, final_odometer_km := none
        last_charge_date := none, date_from := d.dateFrom, date_to := d.dateTo } := by
  simp [calculate_home_summary, h]

theorem analyze_month_of_nil {d : ChargingData}
    (h : filter_home_charges d = []) : analyze_month d = none := by
  simp [analyze_month, h]

theorem calculate_all_of_nil {d : ChargingData} (h : d.results = []) :
    calculate_all_charging_summary d =
      { total_sessions := 0, home_sessions := 0, away_sessions := 0
        total_kwh_all := none, total_kwh_home := none, total_kwh_away := none
        total_cost_home := none, total_cost_super := none, total_cost_travel := none
        total_cost_all := none } := by
  simp [calculate_all_charging_summary, h]

theorem calculate_home_summary_of_ne_nil {d : ChargingData}
    (hne : filter_home_charges d ≠ []) {s : RawCharge}
    (hs : lastElem? (sortByDate (filter_home_charges d)) = some s) :
    calculate_home_summary d =
      { total_sessions := (filter_home_charges d).length
        total_kwh := roundTo 2 (homeKwhRaw d)
        total_cost := roundTo 2 (homeCostRaw d)
        avg_cost_per_kwh :=
          some (if 0 < homeKwhRaw d then roundTo 4 (homeCostRaw d / homeKwhRaw d) else 0)
        final_odometer_mi :=
          if (s.odometer).getD 0 = 0 then none
          else some (roundTo 1 ((s.odometer).getD 0))
        final_odometer_km :=
          if (s.odometer).getD 0 = 0 then none
          else if (s.odometer).getD 0 * kmPerMi = 0 then none
          else some (roundTo 1 ((s.odometer).getD 0 * kmPerMi))
        last_charge_date := s.date
        date_from := d.dateFrom
        date_to := d.dateTo } := by
  obtain ⟨a, t, hat⟩ := List.exists_cons_of_ne_nil hne
  unfold calculate_home_summary homeKwhRaw homeCostRaw
  rw [hat] at hs ⊢
  simp only [List.isEmpty_cons, Bool.false_eq_true, if_false, hs]
  by_cases hmi : (s.odometer).getD 0 = 0
  · simp [hmi]
  · simp [hmi]

theorem analyze_month_of_ne_nil {d : ChargingData}
    (hne : filter_home_charges d ≠ []) {s : RawCharge}
    (hs : lastElem? (sortByDate (filter_home_charges d)) = some s) :
    analyze_month d =
      some { kwh := roundTo 1 (homeKwhRaw d)
             cost := roundTo 2 (homeCostRaw d)
             odo := roundTo 0 ((s.odometer).getD 0)
             cost_per_kwh :=
               if 0 < homeKwhRaw d then roundTo 2 (homeCostRaw d / homeKwhRaw d) else 0 } := by
  obtain ⟨a, t, hat⟩ := List.exists_cons_of_ne_nil hne
  unfold analyze_month homeKwhRaw homeCostRaw
  rw [hat] at hs ⊢
  simp only [List.isEmpty_cons, Bool.false_eq_true, if_false, hs]

theorem calculate_all_of_ne_nil {d : ChargingData} (h : d.results ≠ []) :
    calculate_all_charging_summary d =
      { total_sessions := d.results.length
        home_sessions := (filter_home_charges d).length
        away_sessions := (awayCharges d).length
        total_kwh_all := some (roundTo 2 (sumNum d.results (fun c => c.totalEnergyAdded)))
        total_kwh_home :=
          some (roundTo 2 (sumNum (filter_home_charges d) (fun c => c.totalEnergyAdded)))
        total_kwh_away := some (roundTo 2 (sumNum (awayCharges d) (fun c => c.totalEnergyAdded)))
        total_cost_home := some (roundTo 2 (sumNum (filter_home_charges d) (fun c => c.homeCost)))
        total_cost_super := some (roundTo 2 (sumNum d.results (fun c => c.superCost)))
        total_cost_travel := some (roundTo 2 (sumNum d.results (fun c => c.travelCost)))
        total_cost_all :=
          some (roundTo 2 (sumNum (filter_home_charges d) (fun c => c.homeCost) +
            sumNum d.results (fun c => c.superCost) +
            sumNum d.results (fun c => c.travelCost))) } := by
  obtain ⟨a, t, hat⟩ := List.exists_cons_of_ne_nil h
  unfold calculate_all_charging_summary
  rw [hat]
  simp only [List.isEmpty_cons, Bool.false_eq_true, if_false]

/-! ### Window arithmetic for the trailing-24-months partitioner -/

theorem monthsBack_spec (y m i : ℕ) (hm1 : 1 ≤ m) (hy : 2 ≤ y) (hi2 : i ≤ 24) :
    (monthsBack y m i).1 * 12 + (monthsBack y m i).2 = y * 12 + m - i ∧
    1 ≤ (monthsBack y m i).2 ∧ (monthsBack y m i).2 ≤ 12 := by
  unfold monthsBack
  simp only
  omega

theorem daysInMonth_december (y : ℕ) : daysInMonth y 12 = 31 := by
  simp [daysInMonth]

theorem lastDayOfMonthCode_eq (y m : ℕ) (h1 : 1 ≤ m) (h2 : m ≤ 12) :
    lastDayOfMonthCode y m = ⟨y, m, daysInMonth y m⟩ := by
  by_cases hm : m = 12
  · subst hm
    rw [lastDayOfMonthCode, if_pos rfl, dayBeforeFirst, if_pos (by omega),
      daysInMonth_december]
    simp
  · rw [lastDayOfMonthCode, if_neg hm, dayBeforeFirst, if_neg (by omega)]
    simp

theorem mkMonthWindow_month_bounds (t : Date) (hm1 : 1 ≤ t.month) (hy : 2 ≤ t.year)
    (i : ℕ) (hi2 : i ≤ 24) :
    1 ≤ (mkMonthWindow t i).month ∧ (mkMonthWindow t i).month ≤ 12 := by
  have h := monthsBack_spec t.year t.month i hm1 hy hi2
  simp only [mkMonthWindow]
  exact ⟨h.2.1, h.2.2⟩

theorem mkMonthWindow_monthIdx (t : Date) (hm1 : 1 ≤ t.month) (hy : 2 ≤ t.year)
    (i : ℕ) (hi2 : i ≤ 24) :
    monthIdx (mkMonthWindow t i) = t.year * 12 + t.month - i := by
  have h := monthsBack_spec t.year t.month i hm1 hy hi2
  simp only [mkMonthWindow, monthIdx]
  exact h.1

theorem mkMonthWindow_first_day (t : Date) (i : ℕ) :
    (mkMonthWindow t i).first_day =
      ⟨(mkMonthWindow t i).year, (mkMonthWindow t i).month, 1⟩ := rfl

theorem mkMonthWindow_last_day (t : Date) (hm1 : 1 ≤ t.month) (hy : 2 ≤ t.year)
    (i : ℕ) (hi2 : i ≤ 24) :
    (mkMonthWindow t i).last_day =
      ⟨(mkMonthWindow t i).year, (mkMonthWindow t i).month,
        daysInMonth (mkMonthWindow t i).year (mkMonthWindow t i).month⟩ := by
  have h := monthsBack_spec t.year t.month i hm1 hy hi2
  simp only [mkMonthWindow]
  exact lastDayOfMonthCode_eq _ _ h.2.1 h.2.2

theorem mkMonthWindow_label (t : Date) (i : ℕ) :
    (mkMonthWindow t i).label =
      fmt2 ((mkMonthWindow t i).year % 100) ++ "-" ++ fmt2 (mkMonthWindow t i).month := rfl

theorem trailingMonths24_getElem? (t : Date) (j : ℕ) (hj : j < 24) :
    (trailingMonths24 t)[j]? = some (mkMonthWindow t (24 - j)) := by
  simp [trailingMonths24, List.getElem?_map, List.getElem?_range, hj]

theorem fmt2_length : ∀ n, n < 100 → (fmt2 n).length = 2 := by decide

/-! ### Lemmas about the monthly pipeline -/

theorem lookup_insertLabeled_ne {lbl k : String} {v : MonthAgg} (h : k ≠ lbl) :
    ∀ acc : List (String × MonthAgg),
      List.lookup lbl (insertLabeled acc k v) = List.lookup lbl acc := by
  have hbeq : (lbl == k) = false := beq_eq_false_iff_ne.mpr (Ne.symm h)
  intro acc
  induction acc with
  | nil => simp [insertLabeled, List.lookup, hbeq]
  | cons p rest ih =>
    obtain ⟨k', v'⟩ := p
    simp only [insertLabeled]
    by_cases hk : k' = k
    · subst hk
      simp [List.lookup, hbeq]
    · rw [if_neg hk]
      simp only [List.lookup]
      by_cases hl : lbl = k'
      · subst hl
        simp
      · have hbeq' : (lbl == k') = false := beq_eq_false_iff_ne.mpr hl
        simp [hbeq', ih]

theorem lookup_foldl_monthStep_none (fetch : MonthWindow → Option ChargingData)
    (lbl : String) :
    ∀ (months : List MonthWindow) (acc : List (String × MonthAgg)),
      List.lookup lbl acc = none →
      (∀ m' ∈ months, m'.label = lbl →
        ∀ dta, fetch m' = some dta → filter_home_charges dta = []) →
      List.lookup lbl (months.foldl (monthStep fetch) acc) = none := by
  intro months
  induction months with
  | nil =>
    intro acc hacc _
    exact hacc
  | cons m ms ih =>
    intro acc hacc hemp
    rw [List.foldl_cons]
    have hstep : List.lookup lbl (monthStep fetch acc m) = none := by
      cases hf : fetch m with
      | none =>
        simp only [monthStep, hf]
        exact hacc
      | some data =>
        cases ha : analyze_month data with
        | none =>
          simp only [monthStep, hf, ha]
          exact hacc
        | some agg =>
          simp only [monthStep, hf, ha]
          by_cases hlbl : m.label = lbl
          · have hfe : filter_home_charges data = [] :=
              hemp m (List.mem_cons_self m ms) hlbl data hf
            rw [analyze_month_of_nil hfe] at ha
            exact absurd ha (by simp)
          · rw [lookup_insertLabeled_ne hlbl acc]
            exact hacc
    exact ih (monthStep fetch acc m) hstep
      (fun m' hm' => hemp m' (List.mem_cons_of_mem m hm'))

theorem foldl_congr_of_mem {α β : Type} {l : List α} {f g : β → α → β}
    (h : ∀ b : β, ∀ a ∈ l, f b a = g b a) :
    ∀ acc : β, l.foldl f acc = l.foldl g acc := by
  induction l with
  | nil => intro acc; rfl
  | cons x xs ih =>
    intro acc
    rw [List.foldl_cons, List.foldl_cons, h acc x (List.mem_cons_self x xs)]
    exact ih (fun b a ha => h b a (List.mem_cons_of_mem x ha)) _

theorem priorYearLabel_eq_mkLabel (y m : ℕ) (h1 : 2001 ≤ y) (h2 : y ≤ 2099) :
    priorYearLabel y m = mkLabel (y - 1) m := by
  unfold priorYearLabel mkLabel
  have : (y - 1) % 100 = y - 1 - 2000 := by omega
  rw [this]

theorem sumNum_nonneg {l : List RawCharge} {f : RawCharge → Option ℚ}
    (h : ∀ c ∈ l, 0 ≤ numOr0 (f c)) : 0 ≤ sumNum l f := by
  unfold sumNum
  apply List.sum_nonneg
  intro x hx
  obtain ⟨c, hc, rfl⟩ := List.mem_map.mp hx
  exact h c hc

/-! ## Claim C1 -/

/-- C1 (amended): on an empty or all-filtered-out session collection,
`calculate_home_summary` returns the zero-valued summary with null odometer
fields and no `avg_cost_per_kwh` entry, `calculate_all_charging_summary`
returns only the three zero counts with the monetary and energy fields
omitted, and `analyze_month` returns no aggregate at all (`None`) rather
than a zero-valued one; none of the operations fails. -/
theorem empty_collection_summaries (d : ChargingData) :
    (filter_home_charges d = [] →
      calculate_home_summary d =
        { total_sessions := 0, total_kwh := 0, total_cost := 0
          avg_cost_per_kwh := none, final_odometer_mi := none, final_odometer_km := none
          last_charge_date := none, date_from := d.dateFrom, date_to := d.dateTo } ∧
      analyze_month d = none) ∧
    (d.results = [] →
      calculate_all_charging_summary d =
        { total_sessions := 0, home_sessions := 0, away_sessions := 0
          total_kwh_all := none, total_kwh_home := none, total_kwh_away := none
          total_cost_home := none, total_cost_super := none, total_cost_travel := none
          total_cost_all := none }) :=
  ⟨fun h => ⟨calculate_home_summary_of_nil h, analyze_month_of_nil h⟩,
    fun h => calculate_all_of_nil h⟩

/-- Sample input for C1: the empty session collection. -/
def c1data : ChargingData := {}

/-- C1 counterexample: on the empty collection the per-window monthly
aggregation returns `None`, not a zero-valued aggregate with
`total_sessions = 0`. -/
theorem analyze_month_empty_counterexample : analyze_month c1data = none := rfl

/-- C1 witness: the amended statement evaluated on the empty collection. -/
theorem empty_collection_summaries_witness :
    (filter_home_charges c1data = [] ∧ c1data.results = []) ∧
    calculate_home_summary c1data =
      { total_sessions := 0, total_kwh := 0, total_cost := 0
        avg_cost_per_kwh := none, final_odometer_mi := none, final_odometer_km := none
        last_charge_date := none, date_from := none, date_to := none } ∧
    analyze_month c1data = none ∧
    calculate_all_charging_summary c1data =
      { total_sessions := 0, home_sessions := 0, away_sessions := 0
        total_kwh_all := none, total_kwh_home := none, total_kwh_away := none
        total_cost_home := none, total_cost_super := none, total_cost_travel := none
        total_cost_all := none } :=
  ⟨⟨rfl, rfl⟩, ((empty_collection_summaries c1data).1 rfl).1,
    ((empty_collection_summaries c1data).1 rfl).2,
    (empty_collection_summaries c1data).2 rfl⟩

/-! ## Claim C2 -/

/-- C2: with at least one home session and non-negative energy fields, the
reported `avg_cost_per_kwh` (and `cost_per_kwh` of the monthly aggregate) is
`0` when the unrounded home energy total is `0`, and is the rounded quotient
`total_cost / total_kwh` otherwise; the division is reached only under the
positivity guard, so no division-by-zero fault occurs. -/
theorem avg_cost_per_kwh_guarded (d : ChargingData)
    (hne : filter_home_charges d ≠ [])
    (hE : ∀ c ∈ filter_home_charges d, 0 ≤ numOr0 c.totalEnergyAdded) :
    (homeKwhRaw d = 0 →
      (calculate_home_summary d).avg_cost_per_kwh = some 0 ∧
      ∀ a, analyze_month d = some a → a.cost_per_kwh = 0) ∧
    (homeKwhRaw d ≠ 0 →
      (calculate_home_summary d).avg_cost_per_kwh =
        some (roundTo 4 (homeCostRaw d / homeKwhRaw d)) ∧
      ∀ a, analyze_month d = some a →
        a.cost_per_kwh = roundTo 2 (homeCostRaw d / homeKwhRaw d)) := by
  obtain ⟨s, hs⟩ := lastElem?_eq_some_of_ne_nil (sortByDate_ne_nil hne)
  have hch := calculate_home_summary_of_ne_nil hne hs
  have ham := analyze_month_of_ne_nil hne hs
  constructor
  · intro h0
    have hno : ¬ 0 < homeKwhRaw d := by rw [h0]; exact lt_irrefl 0
    constructor
    · rw [hch]
      simp [hno]
    · intro a haa
      rw [ham] at haa
      have := Option.some.inj haa
      rw [← this]
      simp [hno]
  · intro hne0
    have hpos : 0 < homeKwhRaw d :=
      lt_of_le_of_ne (sumNum_nonneg hE) (Ne.symm hne0)
    constructor
    · rw [hch]
      simp [hpos]
    · intro a haa
      rw [ham] at haa
      have := Option.some.inj haa
      rw [← this]
      simp [hpos]

/-- Sample home session for C2, from the specification's worked scenario. -/
def c2session : RawCharge :=
  { date := some "2025-01-05", homeChargeFlag := some 1, totalEnergyAdded := some 10
    homeCost := some (5 / 2), odometer := some 1000 }

/-- Sample collection for C2. -/
def c2data : ChargingData :=
  { results := [c2session], dateFrom := some "2025-01-01", dateTo := some "2025-01-31" }

/-- C2 witness: the guard evaluated on a one-session collection with
10 kWh at cost 2.5. -/
theorem avg_cost_per_kwh_guarded_witness :
    (filter_home_charges c2data ≠ [] ∧
      (∀ c ∈ filter_home_charges c2data, 0 ≤ numOr0 c.totalEnergyAdded)) ∧
    ((homeKwhRaw c2data = 0 →
      (calculate_home_summary c2data).avg_cost_per_kwh = some 0 ∧
      ∀ a, analyze_month c2data = some a → a.cost_per_kwh = 0) ∧
    (homeKwhRaw c2data ≠ 0 →
      (calculate_home_summary c2data).avg_cost_per_kwh =
        some (roundTo 4 (homeCostRaw c2data / homeKwhRaw c2data)) ∧
      ∀ a, analyze_month c2data = some a →
        a.cost_per_kwh = roundTo 2 (homeCostRaw c2data / homeKwhRaw c2data))) :=
  ⟨⟨by decide, by decide⟩,
    avg_cost_per_kwh_guarded c2data (by decide) (by decide)⟩

/-! ## Claim C5 -/

/-- C5: with at least one home session, the final odometer figures of the
home summary (and of the monthly aggregate) come from the home session whose
`date` string is lexicographically maximum, ties broken by the last
occurrence in input order, which is exactly the last element of the stable
ascending sort by date string. -/
theorem final_odometer_latest_session (d : ChargingData)
    (hne : filter_home_charges d ≠ []) :
    ∃ s, maxDateLastOcc (filter_home_charges d) = some s ∧
      lastElem? (sortByDate (filter_home_charges d)) = some s ∧
      (calculate_home_summary d).last_charge_date = s.date ∧
      (calculate_home_summary d).final_odometer_mi =
        (if (s.odometer).getD 0 = 0 then none
         else some (roundTo 1 ((s.odometer).getD 0))) ∧
      ∀ a, analyze_month d = some a → a.odo = roundTo 0 ((s.odometer).getD 0) := by
  obtain ⟨s, hs⟩ := lastElem?_eq_some_of_ne_nil (sortByDate_ne_nil hne)
  have hmax : maxDateLastOcc (filter_home_charges d) = some s := by
    rw [← lastElem?_sortByDate]
    exact hs
  have hch := calculate_home_summary_of_ne_nil hne hs
  have ham := analyze_month_of_ne_nil hne hs
  refine ⟨s, hmax, hs, ?_, ?_, ?_⟩
  · rw [hch]
  · rw [hch]
  · intro a haa
    rw [ham] at haa
    rw [← Option.some.inj haa]

/-- Sample home sessions for C5: two sessions share the maximal date, the
later occurrence carries odometer 2200. -/
def c5first : RawCharge :=
  { date := some "2025-02-10", homeChargeFlag := some 1, totalEnergyAdded := some 5
    homeCost := some 1, odometer := some 2100 }

/-- The tying session that occurs later in input order. -/
def c5second : RawCharge :=
  { date := some "2025-02-10", homeChargeFlag := some 1, totalEnergyAdded := some 7
    homeCost := some 2, odometer := some 2200 }

/-- Sample collection for C5 with a date tie. -/
def c5data : ChargingData := { results := [c5first, c5second] }

/-- C5 witness: the selection evaluated on a collection with a date tie. -/
theorem final_odometer_latest_session_witness :
    filter_home_charges c5data ≠ [] ∧
    (∃ s, maxDateLastOcc (filter_home_charges c5data) = some s ∧
      lastElem? (sortByDate (filter_home_charges c5data)) = some s ∧
      (calculate_home_summary c5data).last_charge_date = s.date ∧
      (calculate_home_summary c5data).final_odometer_mi =
        (if (s.odometer).getD 0 = 0 then none
         else some (roundTo 1 ((s.odometer).getD 0))) ∧
      ∀ a, analyze_month c5data = some a → a.odo = roundTo 0 ((s.odometer).getD 0)) :=
  ⟨by decide, final_odometer_latest_session c5data (by decide)⟩

/-! ## Claim C6 -/

/-- C6 (amended): with at least one home session, `final_odometer_mi` is null
exactly when the selected last session's odometer is absent or equal to `0`
(the code tests Python truthiness of the float, so a present `0` is also
surfaced as null); in every other case it is that session's odometer rounded
to 1 decimal, with `final_odometer_km = mi * 1.60934` rounded to 1 decimal. -/
theorem final_odometer_null_iff_absent_or_zero (d : ChargingData)
    (hne : filter_home_charges d ≠ []) :
    ∃ s, lastElem? (sortByDate (filter_home_charges d)) = some s ∧
      ((s.odometer).getD 0 = 0 →
        (calculate_home_summary d).final_odometer_mi = none ∧
        (calculate_home_summary d).final_odometer_km = none) ∧
      ((s.odometer).getD 0 ≠ 0 →
        (calculate_home_summary d).final_odometer_mi =
          some (roundTo 1 ((s.odometer).getD 0)) ∧
        (calculate_home_summary d).final_odometer_km =
          some (roundTo 1 ((s.odometer).getD 0 * kmPerMi))) := by
  obtain ⟨s, hs⟩ := lastElem?_eq_some_of_ne_nil (sortByDate_ne_nil hne)
  have hch := calculate_home_summary_of_ne_nil hne hs
  refine ⟨s, hs, ?_, ?_⟩
  · intro h0
    rw [hch]
    simp [h0]
  · intro h0
    have hkm : (s.odometer).getD 0 * kmPerMi ≠ 0 :=
      mul_ne_zero h0 (by norm_num [kmPerMi])
    rw [hch]
    simp [h0, hkm]

/-- Sample session for C6: the odometer key is present with value `0`. -/
def c6session : RawCharge :=
  { date := some "2025-01-05", homeChargeFlag := some 1, totalEnergyAdded := some 10
    homeCost := some 2, odometer := some 0 }

/-- Sample collection for C6. -/
def c6data : ChargingData := { results := [c6session] }

/-- C6 counterexample: the single home session carries a present odometer
value `0`, yet the summary surfaces `final_odometer_mi` as null instead of
the numeric value `0.0`. -/
theorem final_odometer_zero_counterexample :
    c6session.odometer = some 0 ∧
    filter_home_charges c6data = [c6session] ∧
    (calculate_home_summary c6data).final_odometer_mi = none ∧
    (calculate_home_summary c6data).final_odometer_km = none := by
  refine ⟨rfl, by decide, ?_, ?_⟩ <;> rfl

/-- Sample session for the C6 witness, with a nonzero odometer. -/
def c6bsession : RawCharge :=
  { date := some "2025-01-06", homeChargeFlag := some 1, totalEnergyAdded := some 10
    homeCost := some 2, odometer := some 1000 }

/-- Sample collection for the C6 witness. -/
def c6bdata : ChargingData := { results := [c6bsession] }

/-- C6 witness: the amended statement evaluated on a one-session collection. -/
theorem final_odometer_null_iff_witness :
    filter_home_charges c6bdata ≠ [] ∧
    (∃ s, lastElem? (sortByDate (filter_home_charges c6bdata)) = some s ∧
      ((s.odometer).getD 0 = 0 →
        (calculate_home_summary c6bdata).final_odometer_mi = none ∧
        (calculate_home_summary c6bdata).final_odometer_km = none) ∧
      ((s.odometer).getD 0 ≠ 0 →
        (calculate_home_summary c6bdata).final_odometer_mi =
          some (roundTo 1 ((s.odometer).getD 0)) ∧
        (calculate_home_summary c6bdata).final_odometer_km =
          some (roundTo 1 ((s.odometer).getD 0 * kmPerMi)))) :=
  ⟨by decide, final_odometer_null_iff_absent_or_zero c6bdata (by decide)⟩

/-! ## Claim C7 -/

/-- C7 (amended): the per-session detail view never fails on a session whose
odometer is absent; it substitutes a zero default, emitting `odometer_mi = 0.0`
for such sessions, and otherwise emits the session's odometer rounded to
1 decimal.  Input order is preserved. -/
theorem details_substitute_zero_default (d : ChargingData) (b : Bool) :
    get_charging_details d b =
      (if b then filter_home_charges d else d.results).map detailOfCharge ∧
    (∀ c : RawCharge, (detailOfCharge c).odometer_mi = roundTo 1 ((c.odometer).getD 0)) ∧
    (∀ c : RawCharge, c.odometer = none → (detailOfCharge c).odometer_mi = 0) := by
  refine ⟨rfl, fun c => rfl, fun c hc => ?_⟩
  simp only [detailOfCharge, hc, Option.getD_none]
  simp [roundTo]

/-- Sample away session for C7: the odometer key is absent. -/
def c7session : RawCharge :=
  { date := some "2025-01-10", homeChargeFlag := some 0, totalEnergyAdded := some 20
    superCost := some 5 }

/-- Sample collection for C7. -/
def c7data : ChargingData := { results := [c7session] }

/-- C7 counterexample: the detail view applied to a session with an absent
odometer does not fail; it emits an entry whose `odometer_mi` is the zero
default `0.0`. -/
theorem details_absent_odometer_counterexample :
    c7session.odometer = none ∧
    (get_charging_details c7data false).map (fun dt => dt.odometer_mi) = [0] ∧
    (get_charging_details c7data false).length = 1 := by
  refine ⟨rfl, ?_, rfl⟩
  simp only [get_charging_details, c7data, if_neg Bool.false_ne_true]
  simp only [List.map_map, List.map_cons, List.map_nil, Function.comp]
  simp only [detailOfCharge, c7session, Option.getD_none]
  norm_num [roundTo]

/-- C7 witness: the amended statement evaluated on the sample collection,
with the zero-default conjunct discharged at the absent-odometer session. -/
theorem details_substitute_zero_default_witness :
    get_charging_details c7data false =
      (if false then filter_home_charges c7data else c7data.results).map detailOfCharge ∧
    (detailOfCharge c7session).odometer_mi = roundTo 1 ((c7session.odometer).getD 0) ∧
    (detailOfCharge c7session).odometer_mi = 0 :=
  ⟨(details_substitute_zero_default c7data false).1,
    (details_substitute_zero_default c7data false).2.1 c7session,
    (details_substitute_zero_default c7data false).2.2 c7session rfl⟩

/-! ## Claim C8 -/

/-- C8 (amended): on every nonempty session collection, `total_cost_super`
is the rounded sum of `superCost` over ALL sessions (not only away ones),
`total_cost_travel` the rounded sum of `travelCost` over ALL sessions,
`total_cost_home` the rounded sum of `homeCost` over home sessions only, and
`total_cost_all` the sum of the three unrounded totals rounded to 2
decimals; on the empty collection these monetary fields are omitted. -/
theorem all_charging_cost_fields (d : ChargingData) (h : d.results ≠ []) :
    (calculate_all_charging_summary d).total_cost_super =
      some (roundTo 2 (sumNum d.results (fun c => c.superCost))) ∧
    (calculate_all_charging_summary d).total_cost_travel =
      some (roundTo 2 (sumNum d.results (fun c => c.travelCost))) ∧
    (calculate_all_charging_summary d).total_cost_home =
      some (roundTo 2 (sumNum (filter_home_charges d) (fun c => c.homeCost))) ∧
    (calculate_all_charging_summary d).total_cost_all =
      some (roundTo 2 (sumNum (filter_home_charges d) (fun c => c.homeCost) +
        sumNum d.results (fun c => c.superCost) +
        sumNum d.results (fun c => c.travelCost))) := by
  rw [calculate_all_of_ne_nil h]
  exact ⟨rfl, rfl, rfl, rfl⟩

/-- Sample input for the C8 counterexample: the empty collection. -/
def c8data : ChargingData := {}

/-- C8 counterexample: on the empty collection `calculate_all_charging_summary`
reports no cost fields at all, instead of reporting each cost field as a
(zero) sum. -/
theorem all_charging_empty_counterexample :
    c8data.results = [] ∧
    (calculate_all_charging_summary c8data).total_cost_super = none ∧
    (calculate_all_charging_summary c8data).total_cost_travel = none ∧
    (calculate_all_charging_summary c8data).total_cost_home = none ∧
    (calculate_all_charging_summary c8data).total_cost_all = none :=
  ⟨rfl, rfl, rfl, rfl, rfl⟩

/-- Sample home session for C8: carries both a home and a supercharging
cost, so the ALL-sessions summation is visible. -/
def c8home : RawCharge :=
  { date := some "2025-03-01", homeChargeFlag := some 1, totalEnergyAdded := some 10
    homeCost := some 3, superCost := some 4 }

/-- Sample away session for C8. -/
def c8away : RawCharge :=
  { date := some "2025-03-02", homeChargeFlag := some 0, totalEnergyAdded := some 20
    superCost := some 5, travelCost := some 7 }

/-- Sample nonempty collection for the C8 witness. -/
def c8bdata : ChargingData := { results := [c8home, c8away] }

/-- C8 witness: the amended statement evaluated on a collection where a home
session also carries a supercharging cost. -/
theorem all_charging_cost_fields_witness :
    c8bdata.results ≠ [] ∧
    ((calculate_all_charging_summary c8bdata).total_cost_super =
      some (roundTo 2 (sumNum c8bdata.results (fun c => c.superCost))) ∧
    (calculate_all_charging_summary c8bdata).total_cost_travel =
      some (roundTo 2 (sumNum c8bdata.results (fun c => c.travelCost))) ∧
    (calculate_all_charging_summary c8bdata).total_cost_home =
      some (roundTo 2 (sumNum (filter_home_charges c8bdata) (fun c => c.homeCost))) ∧
    (calculate_all_charging_summary c8bdata).total_cost_all =
      some (roundTo 2 (sumNum (filter_home_charges c8bdata) (fun c => c.homeCost) +
        sumNum c8bdata.results (fun c => c.superCost) +
        sumNum c8bdata.results (fun c => c.travelCost)))) :=
  ⟨by decide, all_charging_cost_fields c8bdata (by decide)⟩

/-! ## Claim C9 -/

theorem length_filter_add_length_filter_not (l : List RawCharge) (p : RawCharge → Bool) :
    (l.filter p).length + (l.filter (fun c => !p c)).length = l.length := by
  induction l with
  | nil => rfl
  | cons x xs ih =>
    simp only [List.filter_cons]
    cases h : p x <;> simp [h] <;> omega

/-- C9: a session is home iff its raw `homeChargeFlag` equals the integer `1`
exactly; the home and away subsets partition the collection exclusively and
exhaustively, and `home_sessions + away_sessions = total_sessions` in the
all-charging summary for every input. -/
theorem home_away_partition (d : ChargingData) :
    (∀ c : RawCharge, isHomeCharge c = true ↔ c.homeChargeFlag = some 1) ∧
    (∀ c ∈ d.results,
      (c ∈ filter_home_charges d ↔ c.homeChargeFlag = some 1) ∧
      (c ∈ awayCharges d ↔ c.homeChargeFlag ≠ some 1)) ∧
    (∀ c : RawCharge, ¬ (c ∈ filter_home_charges d ∧ c ∈ awayCharges d)) ∧
    (filter_home_charges d).length + (awayCharges d).length = d.results.length ∧
    (calculate_all_charging_summary d).home_sessions +
      (calculate_all_charging_summary d).away_sessions =
      (calculate_all_charging_summary d).total_sessions := by
  have hiff : ∀ c : RawCharge, isHomeCharge c = true ↔ c.homeChargeFlag = some 1 := by
    intro c
    simp [isHomeCharge]
  refine ⟨hiff, ?_, ?_, ?_, ?_⟩
  · intro c hc
    constructor
    · rw [filter_home_charges, List.mem_filter]
      simp [hc, hiff c]
    · rw [awayCharges, List.mem_filter]
      simp only [hc, true_and, Bool.not_eq_true', Bool.eq_false_iff]
      exact not_congr (hiff c)
  · intro c ⟨hh, ha⟩
    rw [filter_home_charges, List.mem_filter] at hh
    rw [awayCharges, List.mem_filter] at ha
    have h2 := ha.2
    rw [hh.2] at h2
    simp at h2
  · exact length_filter_add_length_filter_not d.results isHomeCharge
  · by_cases h : d.results = []
    · rw [calculate_all_of_nil h]
      rfl
    · rw [calculate_all_of_ne_nil h]
      exact length_filter_add_length_filter_not d.results isHomeCharge

/-- Sample collection for the C9 witness: one home and one away session. -/
def c9data : ChargingData := { results := [c8home, c8away] }

/-- C9 witness: the partition statement evaluated on a two-session
collection. -/
theorem home_away_partition_witness :
    (∀ c : RawCharge, isHomeCharge c = true ↔ c.homeChargeFlag = some 1) ∧
    (∀ c ∈ c9data.results,
      (c ∈ filter_home_charges c9data ↔ c.homeChargeFlag = some 1) ∧
      (c ∈ awayCharges c9data ↔ c.homeChargeFlag ≠ some 1)) ∧
    (∀ c : RawCharge, ¬ (c ∈ filter_home_charges c9data ∧ c ∈ awayCharges c9data)) ∧
    (filter_home_charges c9data).length + (awayCharges c9data).length =
      c9data.results.length ∧
    (calculate_all_charging_summary c9data).home_sessions +
      (calculate_all_charging_summary c9data).away_sessions =
      (calculate_all_charging_summary c9data).total_sessions :=
  home_away_partition c9data

/-! ## Claim C3 -/

/-- C3: the year-over-year figure for a month labeled `YY-MM` in year `y`
(with `2001 ≤ y ≤ 2099`, as in any trailing-24-months run of this tool) is
computed against the aggregate labeled `(YY-1)-MM`: it equals the percentage
change of the kwh figures rounded to 0 decimals when that prior aggregate
exists with positive kwh, and is absent (not zero) when the prior label is
missing or the prior kwh is 0. -/
theorem year_over_year_lookup (monthly : List (String × MonthAgg)) (y m : ℕ)
    (currKwh : ℚ) (hy1 : 2001 ≤ y) (hy2 : y ≤ 2099) :
    priorYearLabel y m = mkLabel (y - 1) m ∧
    (List.lookup (mkLabel (y - 1) m) monthly = none →
      yoyFor monthly y m currKwh = none) ∧
    (∀ p, List.lookup (mkLabel (y - 1) m) monthly = some p →
      (0 < p.kwh →
        yoyFor monthly y m currKwh =
          some (roundTo 0 ((currKwh - p.kwh) / p.kwh * 100))) ∧
      (p.kwh = 0 → yoyFor monthly y m currKwh = none)) := by
  have hl := priorYearLabel_eq_mkLabel y m hy1 hy2
  refine ⟨hl, ?_, ?_⟩
  · intro hnone
    unfold yoyFor
    rw [hl, hnone]
  · intro p hp
    constructor
    · intro hpos
      unfold yoyFor
      rw [hl, hp]
      simp [hpos]
    · intro h0
      unfold yoyFor
      rw [hl, hp]
      simp [h0]

/-- Sample monthly aggregates for C3: only the `24-01` entry, with 100 kwh. -/
def c3monthly : List (String × MonthAgg) :=
  [("24-01", { kwh := 100, cost := 30, odo := 5000, cost_per_kwh := 0 })]

/-- C3 witness: for `25-01` with 150 kwh against `24-01` with 100 kwh the
year-over-year figure is `+50`, and with no `24-12` entry the figure for
`25-12` is absent. -/
theorem year_over_year_lookup_witness :
    (2001 ≤ 2025 ∧ 2025 ≤ 2099) ∧
    yoyFor c3monthly 2025 1 150 = some 50 ∧
    yoyFor c3monthly 2025 12 80 = none := by
  refine ⟨⟨by norm_num, by norm_num⟩, ?_, ?_⟩
  · have h := (year_over_year_lookup c3monthly 2025 1 150 (by norm_num)
      (by norm_num)).2.2 { kwh := 100, cost := 30, odo := 5000, cost_per_kwh := 0 }
      (by decide)
    rw [h.1 (by norm_num)]
    norm_num [roundTo, round_eq]
  · exact (year_over_year_lookup c3monthly 2025 12 80 (by norm_num)
      (by norm_num)).2.1 (by decide)

/-! ## Claim C4 -/

theorem window_adjacent {w w' : MonthWindow}
    (hb1 : 1 ≤ w.month) (hb2 : w.month ≤ 12) (hb1' : 1 ≤ w'.month) (hb2' : w'.month ≤ 12)
    (hidx : monthIdx w' = monthIdx w + 1)
    (hl : w.last_day = ⟨w.year, w.month, daysInMonth w.year w.month⟩)
    (hf : w'.first_day = ⟨w'.year, w'.month, 1⟩) :
    nextDay w.last_day = w'.first_day := by
  simp only [monthIdx] at hidx
  rw [hl, hf]
  simp only [nextDay]
  rw [if_pos trivial]
  by_cases hm : w.month = 12
  · rw [if_pos hm]
    rw [Date.mk.injEq]
    refine ⟨by omega, by omega, rfl⟩
  · rw [if_neg hm]
    rw [Date.mk.injEq]
    refine ⟨by omega, by omega, rfl⟩

/-- The conjunction of window properties asserted by the
trailing-24-months claim, for a given value of today. -/
def trailingWindowsGood (t : Date) : Prop :=
  (trailingMonths24 t).length = 24 ∧
  (∀ w ∈ trailingMonths24 t,
    1 ≤ w.month ∧ w.month ≤ 12 ∧
    w.first_day = ⟨w.year, w.month, 1⟩ ∧
    w.last_day = ⟨w.year, w.month, daysInMonth w.year w.month⟩ ∧
    w.label = fmt2 (w.year % 100) ++ "-" ++ fmt2 w.month ∧
    (fmt2 (w.year % 100)).length = 2 ∧ (fmt2 w.month).length = 2) ∧
  (∀ j : ℕ, j + 1 < 24 → ∀ w w',
    (trailingMonths24 t)[j]? = some w → (trailingMonths24 t)[j + 1]? = some w' →
    monthIdx w' = monthIdx w + 1 ∧ nextDay w.last_day = w'.first_day) ∧
  (∀ w, (trailingMonths24 t)[23]? = some w → monthIdx w + 1 = t.year * 12 + t.month)

/-- C4: for every today (any month, any year from 2 on), the trailing
partitioner emits exactly 24 windows, each spanning one full calendar month
from its first day to its calendar-correct last day (leap February and
December rollover included), labelled two-digit year, dash, two-digit month;
consecutive windows cover consecutive months with no gap or overlap (the day
after one window's last day is the next window's first day), and the newest
window is the month immediately before the month containing today. -/
theorem trailing_months24_correct (t : Date) (h1 : 1 ≤ t.month) (h2 : t.month ≤ 12)
    (hy : 2 ≤ t.year) : trailingWindowsGood t := by
  refine ⟨by simp [trailingMonths24], ?_, ?_, ?_⟩
  · intro w hw
    rw [trailingMonths24] at hw
    obtain ⟨j, hj, rfl⟩ := List.mem_map.mp hw
    rw [List.mem_range] at hj
    obtain ⟨hm1, hm2⟩ := mkMonthWindow_month_bounds t h1 hy (24 - j) (by omega)
    refine ⟨hm1, hm2, mkMonthWindow_first_day t (24 - j),
      mkMonthWindow_last_day t h1 hy (24 - j) (by omega),
      mkMonthWindow_label t (24 - j), ?_, ?_⟩
    · exact fmt2_length _ (Nat.mod_lt _ (by omega))
    · exact fmt2_length _ (by omega)
  · intro j hj w w' hw hw'
    rw [trailingMonths24_getElem? t j (by omega)] at hw
    rw [trailingMonths24_getElem? t (j + 1) (by omega)] at hw'
    have hww : w = mkMonthWindow t (24 - j) := (Option.some.inj hw).symm
    have hww' : w' = mkMonthWindow t (24 - (j + 1)) := (Option.some.inj hw').symm
    have hbw := mkMonthWindow_month_bounds t h1 hy (24 - j) (by omega)
    have hbw' := mkMonthWindow_month_bounds t h1 hy (24 - (j + 1)) (by omega)
    have hiw := mkMonthWindow_monthIdx t h1 hy (24 - j) (by omega)
    have hiw' := mkMonthWindow_monthIdx t h1 hy (24 - (j + 1)) (by omega)
    have hidx : monthIdx w' = monthIdx w + 1 := by
      rw [hww, hww', hiw, hiw']
      omega
    refine ⟨hidx, ?_⟩
    apply window_adjacent (by rw [hww]; exact hbw.1) (by rw [hww]; exact hbw.2)
      (by rw [hww']; exact hbw'.1) (by rw [hww']; exact hbw'.2) hidx
    · rw [hww]
      exact mkMonthWindow_last_day t h1 hy (24 - j) (by omega)
    · rw [hww']
      exact mkMonthWindow_first_day t (24 - (j + 1))
  · intro w hw
    rw [trailingMonths24_getElem? t 23 (by omega)] at hw
    have hww : w = mkMonthWindow t (24 - 23) := (Option.some.inj hw).symm
    have hiw := mkMonthWindow_monthIdx t h1 hy (24 - 23) (by omega)
    rw [hww, hiw]
    omega

/-- C4 witness: the window properties evaluated at today = 2025-10-12. -/
theorem trailing_months24_correct_witness :
    (1 ≤ (⟨2025, 10, 12⟩ : Date).month ∧ (⟨2025, 10, 12⟩ : Date).month ≤ 12 ∧
      2 ≤ (⟨2025, 10, 12⟩ : Date).year) ∧
    trailingWindowsGood ⟨2025, 10, 12⟩ :=
  ⟨⟨by decide, by decide, by decide⟩,
    trailing_months24_correct ⟨2025, 10, 12⟩ (by decide) (by decide) (by decide)⟩

/-! ## Claim C10 -/

/-- C10: a month window whose fetched results contain no home session (this
covers every window carrying that label) contributes no entry at all to the
monthly series: its label is absent from `monthly_data`, the whole series is
identical to the one produced when that window's fetch fails outright, and
any month whose prior-year lookup hits that label gets an absent
year-over-year figure. -/
theorem missing_home_month_absent (months : List MonthWindow)
    (fetch : MonthWindow → Option ChargingData) (mp : MonthWindow)
    (hemp : ∀ m' ∈ months, m'.label = mp.label →
      (fetch m').all (fun dta => (filter_home_charges dta).isEmpty) = true) :
    List.lookup mp.label (buildMonthlyData months fetch) = none ∧
    buildMonthlyData months fetch =
      buildMonthlyData months (updateFetchNone fetch mp) ∧
    (∀ y m currKwh, priorYearLabel y m = mp.label →
      yoyFor (buildMonthlyData months fetch) y m currKwh = none) := by
  have hemp' : ∀ m' ∈ months, m'.label = mp.label →
      ∀ dta, fetch m' = some dta → filter_home_charges dta = [] := by
    intro m' hm hl dta hf
    have h := hemp m' hm hl
    rw [hf] at h
    simpa using h
  have h1 : List.lookup mp.label (buildMonthlyData months fetch) = none :=
    lookup_foldl_monthStep_none fetch mp.label months [] rfl hemp'
  refine ⟨h1, ?_, ?_⟩
  · unfold buildMonthlyData
    apply foldl_congr_of_mem
    intro b a ha
    by_cases haeq : a = mp
    · subst haeq
      have hupd : updateFetchNone fetch a a = none := by simp [updateFetchNone]
      cases hf : fetch a with
      | none => simp only [monthStep, hf, hupd]
      | some dta =>
        have hfil := hemp' a ha rfl dta hf
        simp only [monthStep, hf, hupd, analyze_month_of_nil hfil]
    · have hupd : updateFetchNone fetch mp a = fetch a := by
        simp [updateFetchNone, haeq]
      simp only [monthStep, hupd]
  · intro y m currKwh hpl
    unfold yoyFor
    rw [hpl, h1]

/-- Sample away session for C10: the only session of the prior-year month. -/
def c10away : RawCharge :=
  { date := some "2024-01-07", homeChargeFlag := some 0, totalEnergyAdded := some 30 }

/-- Sample home session for C10, in the current-year month. -/
def c10home : RawCharge :=
  { date := some "2025-01-09", homeChargeFlag := some 1, totalEnergyAdded := some 40
    homeCost := some 8, odometer := some 9000 }

/-- The prior-year window for C10, labelled `24-01`. -/
def c10mp : MonthWindow :=
  { year := 2024, month := 1, first_day := ⟨2024, 1, 1⟩
    last_day := ⟨2024, 1, 31⟩, label := "24-01" }

/-- The current-year window for C10, labelled `25-01`. -/
def c10mc : MonthWindow :=
  { year := 2025, month := 1, first_day := ⟨2025, 1, 1⟩
    last_day := ⟨2025, 1, 31⟩, label := "25-01" }

/-- The two-window month list for C10. -/
def c10months : List MonthWindow := [c10mp, c10mc]

/-- The fetch outcomes for C10: the prior-year window returns only an away
session, the current-year window returns a home session. -/
def c10fetch : MonthWindow → Option ChargingData := fun w =>
  if w = c10mp then some { results := [c10away] }
  else if w = c10mc then some { results := [c10home] } else none

/-- C10 witness: the absent-month behaviour evaluated on a two-window
pipeline whose prior-year window has no home session. -/
theorem missing_home_month_absent_witness :
    (∀ m' ∈ c10months, m'.label = c10mp.label →
      (c10fetch m').all (fun dta => (filter_home_charges dta).isEmpty) = true) ∧
    List.lookup c10mp.label (buildMonthlyData c10months c10fetch) = none ∧
    buildMonthlyData c10months c10fetch =
      buildMonthlyData c10months (updateFetchNone c10fetch c10mp) ∧
    (∀ y m currKwh, priorYearLabel y m = c10mp.label →
      yoyFor (buildMonthlyData c10months c10fetch) y m currKwh = none) :=
  ⟨by decide, missing_home_month_absent c10months c10fetch c10mp (by decide)⟩
